import Mathlib

/-!
Verification of the flight-calendar-updater pipeline (scraper path in
`extract_flight.py`, pydantic validators in `src/datamodels.py`, calendar
upsert in `src/calendar_client.py`).

Python strings are embedded as `List Char`; Python exceptions as an explicit
`PyError` sum carried in `Except`; `datetime` values as explicit records with
a UTC-offset field (pytz attaches a fixed offset at `localize` time and
`datetime.replace` keeps it).  External reference data (the airportsdata IATA
table, the country-converter fuzzy matcher, pycountry, the IANA timezone
rules used by pytz) is modelled by finite tables / explicit rules restricted
to the values exercised here, as documented on each definition.
-/

/-- Python exception kinds that the pipeline can raise or catch. -/
inductive PyError where
  | httpError
  | runtimeError
  | keyError
  | valueError
deriving DecidableEq, Repr

/-- Python whitespace test for `str.strip` (ASCII fragment). -/
def pyIsSpace (c : Char) : Bool :=
  c = ' ' ∨ c = '\t' ∨ c = '\n' ∨ c = '\r'

/-- `s.strip()` keeping only the part between leading and trailing whitespace. -/
def pyStrip (s : List Char) : List Char :=
  ((s.dropWhile pyIsSpace).reverse.dropWhile pyIsSpace).reverse

/-- `s.strip(c)` for a single strip character: removes `c` from both ends. -/
def pyStripChar (c : Char) (s : List Char) : List Char :=
  ((s.dropWhile (· = c)).reverse.dropWhile (· = c)).reverse

/-- Python `s.split(sep)` for a single-character separator `c`: scans left
to right, splitting at each occurrence of `c`. -/
def splitChar (c : Char) : List Char → List (List Char)
  | [] => [[]]
  | x :: xs =>
    let r := splitChar c xs
    if x = c then [] :: r else (x :: r.headD []) :: r.tail

/-- Python `s.split(", ")`: scans left to right, splitting at each
(non-overlapping) occurrence of the two-character separator `", "`. -/
def splitCommaSpace : List Char → List (List Char)
  | [] => [[]]
  | [x] => [[x]]
  | x :: y :: xs =>
    if x = ',' ∧ y = ' ' then [] :: splitCommaSpace xs
    else
      let r := splitCommaSpace (y :: xs)
      (x :: r.headD []) :: r.tail

/-- Whether `sep` occurs as a contiguous substring of `s` (Python `sep in s`). -/
def hasSub (sep : List Char) : List Char → Bool
  | [] => sep.isEmpty
  | c :: rest => sep.isPrefixOf (c :: rest) || hasSub sep rest

/-- Numeric value of a decimal digit string. -/
def digitsVal (s : List Char) : Nat :=
  s.foldl (fun n c => 10 * n + (c.toNat - 48)) 0

/-- Python `s.isdigit()` (ASCII fragment): non-empty and all digits. -/
def pyIsDigit (s : List Char) : Bool :=
  ¬s.isEmpty ∧ s.all Char.isDigit

/-- Python `s.isalpha()` (ASCII fragment): non-empty and all letters. -/
def pyIsAlpha (s : List Char) : Bool :=
  ¬s.isEmpty ∧ s.all Char.isAlpha

/-- Python `int(s)` (decimal fragment: optional sign around a digit string,
surrounding whitespace allowed); raises ValueError otherwise. -/
def pyInt (s : List Char) : Except PyError Int :=
  match pyStrip s with
  | '-' :: rest => if pyIsDigit rest then .ok (-(digitsVal rest : Int)) else .error .valueError
  | '+' :: rest => if pyIsDigit rest then .ok (digitsVal rest : Int) else .error .valueError
  | t => if pyIsDigit t then .ok (digitsVal t : Int) else .error .valueError

/-! ## Proleptic Gregorian calendar arithmetic (naive `datetime` values) -/

/-- Gregorian leap-year rule. -/
def isLeap (y : Nat) : Bool :=
  y % 4 = 0 ∧ (y % 100 ≠ 0 ∨ y % 400 = 0)

/-- Number of days in month `m` of year `y` (0 for an invalid month). -/
def monthLength (y m : Nat) : Nat :=
  match m with
  | 1 => 31 | 2 => if isLeap y then 29 else 28 | 3 => 31 | 4 => 30
  | 5 => 31 | 6 => 30 | 7 => 31 | 8 => 31 | 9 => 30 | 10 => 31
  | 11 => 30 | 12 => 31 | _ => 0

/-- Cumulative days before month `m` in a non-leap year (saturates at 365). -/
def daysBeforeMonthBase (m : Nat) : Nat :=
  match m with
  | 0 => 0 | 1 => 0 | 2 => 31 | 3 => 59 | 4 => 90 | 5 => 120 | 6 => 151
  | 7 => 181 | 8 => 212 | 9 => 243 | 10 => 273 | 11 => 304 | 12 => 334 | _ => 365

/-- Cumulative days before month `m` in year `y`. -/
def daysBeforeMonth (y m : Nat) : Nat :=
  daysBeforeMonthBase m + (if 3 ≤ m ∧ isLeap y then 1 else 0)

/-- Days from 0001-01-01 to the start of year `y` (proleptic Gregorian). -/
def daysBeforeYear (y : Nat) : Nat :=
  (y - 1) * 365 + (y - 1) / 4 + (y - 1) / 400 - (y - 1) / 100

/-- Days from 0001-01-01 to the date `y-m-d` (0 for 0001-01-01 itself). -/
def toDays (y m d : Nat) : Nat :=
  daysBeforeYear y + daysBeforeMonth y m + (d - 1)

/-- Weekday of `y-m-d`, 0 = Monday … 6 = Sunday (0001-01-01 was a Monday). -/
def weekdayOf (y m d : Nat) : Nat :=
  toDays y m d % 7

/-- Day of month of the last Sunday of a 31-day month `m` of year `y`. -/
def lastSundayOf (y m : Nat) : Nat :=
  31 - ((weekdayOf y m 31 + 1) % 7)

/-- Encodes month/day/hour/minute into one number preserving lexicographic
order (each component is below 100 for valid datetimes). -/
def mdhmKey (m d h mi : Nat) : Nat :=
  ((m * 100 + d) * 100 + h) * 100 + mi

/-- IANA timezones appearing in the airport table. -/
inductive Tz where
  | europeBerlin
  | europeZurich
deriving DecidableEq, Repr

/-- Modelled from the spec: the IANA/pytz rules shared by Europe/Berlin and
Europe/Zurich — CET (UTC+60 min) with CEST (UTC+120 min) between 03:00 local
on the last Sunday of March and 02:00 local on the last Sunday of October;
`pytz.localize` with its default `is_dst=False` resolves nonexistent and
ambiguous local times to the standard (CET) offset, which this rule matches. -/
def euOffset (y m d h mi : Nat) : Int :=
  if mdhmKey 3 (lastSundayOf y 3) 3 0 ≤ mdhmKey m d h mi ∧
      mdhmKey m d h mi < mdhmKey 10 (lastSundayOf y 10) 2 0 then 120 else 60

/-- UTC offset in minutes that `pytz.timezone(tz).localize` attaches to the
given naive local time (both table zones follow the same EU rules). -/
def tzLocalOffset (tz : Tz) (y m d h mi : Nat) : Int :=
  match tz with
  | .europeBerlin => euOffset y m d h mi
  | .europeZurich => euOffset y m d h mi

/-- A Python `datetime` as produced by this code base: naive wall-clock
fields plus the fixed UTC offset (minutes) and zone that `pytz.localize`
attached.  `datetime.replace` and `datetime + timedelta` keep the offset. -/
@[ext]
structure PyDateTime where
  year : Nat
  month : Nat
  day : Nat
  hour : Nat
  minute : Nat
  second : Nat
  offset : Int
  tz : Tz
deriving DecidableEq, Repr

/-- Seconds from 0001-01-01 00:00 to the naive wall-clock reading. -/
def naiveSeconds (dt : PyDateTime) : Nat :=
  (toDays dt.year dt.month dt.day * 24 + dt.hour) * 3600 + dt.minute * 60 + dt.second

/-- The instant a localized `datetime` denotes, in UTC seconds; Python
compares aware datetimes by exactly this quantity. -/
def toUTCSeconds (dt : PyDateTime) : Int :=
  (naiveSeconds dt : Int) - dt.offset * 60

/-- `dt.replace(year=y)`: changes only the year, raising ValueError when the
day does not exist in the new year (Feb 29) or the year is out of range. -/
def pyReplaceYear (y : Nat) (dt : PyDateTime) : Except PyError PyDateTime :=
  if 1 ≤ y ∧ y ≤ 9999 ∧ dt.day ≤ monthLength y dt.month then
    .ok { dt with year := y }
  else
    .error .valueError

/-! ## Reference data (external lookup tables) -/

/-- An entry of the airportsdata IATA table: city name and IANA timezone. -/
structure AirportRec where
  city : List Char
  tz : Tz
deriving DecidableEq, Repr

/-- Modelled from the spec: the read-only airportsdata IATA table
(`airports = airportsdata.load("IATA")`), restricted to the airports
exercised by these theorems. -/
def airportsTable (code : List Char) : Option AirportRec :=
  if code = (r"FRA").toList then some ⟨(r"Frankfurt-am-Main").toList, .europeBerlin⟩
  else if code = (r"BER").toList then some ⟨(r"Berlin").toList, .europeBerlin⟩
  else if code = (r"ZRH").toList then some ⟨(r"Zurich").toList, .europeZurich⟩
  else none

/-- A pycountry ISO country record (fields used by this code base). -/
structure CountryRec where
  name : List Char
  alpha2 : List Char
  alpha3 : List Char
deriving DecidableEq, Repr

def germanyRec : CountryRec :=
  ⟨(r"Germany").toList, (r"DE").toList, (r"DEU").toList⟩

def switzerlandRec : CountryRec :=
  ⟨(r"Switzerland").toList, (r"CH").toList, (r"CHE").toList⟩

/-- Modelled from the spec: the country-converter fuzzy name matcher
(`cc.convert(name, to="ISO3")`), restricted to the names exercised here;
an unmatched name yields the library default, the string "not found". -/
def cocoConvert (name : List Char) : List Char :=
  if name = (r"Germany").toList then (r"DEU").toList
  else if name = (r"Switzerland").toList then (r"CHE").toList
  else (r"not found").toList

/-- Modelled from the spec: `pycountry.countries.get(alpha_3=...)`,
restricted to the codes exercised here; unknown codes (including the
"not found" sentinel) give `None`. -/
def pycountryGetAlpha3 (iso3 : List Char) : Option CountryRec :=
  if iso3 = (r"DEU").toList then some germanyRec
  else if iso3 = (r"CHE").toList then some switzerlandRec
  else none

/-! ## Scraper path: `extract_flight.py` -/

/-- The raw field mapping produced by `parse_response` (all keys are always
present, defaulting to the empty string). -/
structure RawFieldSet where
  flight_number : List Char
  airline : List Char
  departure_airport : List Char
  arrival_airport : List Char
  departure_time : List Char
  arrival_time : List Char
  departure_country : List Char
  arrival_country : List Char
  departure_date : List Char
  arrival_date : List Char
  departure_terminal : List Char
  arrival_terminal : List Char
  duration : List Char
  aircraft : List Char
deriving DecidableEq, Repr

/-- The `FlightInfo` dataclass of `extract_flight.py`.  It performs no
validation: the country fields hold whatever `extract_country` returned
(possibly `None`), terminals are passed through verbatim, and `duration`
is a `timedelta` (stored here in seconds). -/
@[ext]
structure FlightInfo where
  flight_number : List Char
  airline : List Char
  departure_airport : List Char
  arrival_airport : List Char
  departure_country : Option CountryRec
  arrival_country : Option CountryRec
  departure_city : List Char
  arrival_city : List Char
  departure_terminal : List Char
  arrival_terminal : List Char
  departure_time : PyDateTime
  arrival_time : PyDateTime
  duration : Int
  aircraft : List Char
deriving DecidableEq, Repr

/-- A `timedelta` of `n` minutes, in seconds. -/
def minutesTd (n : Int) : Int := n * 60

/-- `extract_airport_code`: `location.split("(")[-1].strip(")")` when a
parenthesis is present, else the string verbatim. -/
def extract_airport_code (location : List Char) : List Char :=
  if '(' ∈ location then pyStripChar ')' ((splitChar '(' location).getLastD [])
  else location

/-- `extract_country`: take the stripped portion after the last comma (or the
whole string when no comma), fuzzily resolve it to ISO3, then look that up in
pycountry.  An unresolvable name yields `none`; no exception is raised. -/
def extract_country (location : List Char) : Option CountryRec :=
  let country_name :=
    if ',' ∈ location then pyStrip ((splitChar ',' location).getLastD []) else location
  pycountryGetAlpha3 (cocoConvert country_name)

/-- `extract_city_from_airport`: `airports[airport_code]["city"]`; an unknown
code raises KeyError. -/
def extract_city_from_airport (airport_code : List Char) : Except PyError (List Char) :=
  match airportsTable airport_code with
  | some a => .ok a.city
  | none => .error .keyError

/-- Month abbreviations for `strptime`'s `%b`. -/
def monthAbbrevs : List (List Char) :=
  [(r"Jan").toList, (r"Feb").toList, (r"Mar").toList, (r"Apr").toList,
   (r"May").toList, (r"Jun").toList, (r"Jul").toList, (r"Aug").toList,
   (r"Sep").toList, (r"Oct").toList, (r"Nov").toList, (r"Dec").toList]

/-- Full month names for `strptime`'s `%B`. -/
def monthFullNames : List (List Char) :=
  [(r"January").toList, (r"February").toList, (r"March").toList, (r"April").toList,
   (r"May").toList, (r"June").toList, (r"July").toList, (r"August").toList,
   (r"September").toList, (r"October").toList, (r"November").toList, (r"December").toList]

/-- Full weekday names for `strptime`'s `%A`. -/
def weekdayFullNames : List (List Char) :=
  [(r"Monday").toList, (r"Tuesday").toList, (r"Wednesday").toList, (r"Thursday").toList,
   (r"Friday").toList, (r"Saturday").toList, (r"Sunday").toList]

/-- Case-insensitive (ASCII) comparison, as `strptime` matches month and
weekday names case-insensitively. -/
def lowerEq (a b : List Char) : Bool :=
  a.map Char.toLower = b.map Char.toLower

/-- Tries each name in `names` (1-based numbering from `idx`) as a prefix of
`s`, returning the matched number and the rest of the string. -/
def findName (names : List (List Char)) (idx : Nat) (s : List Char) :
    Option (Nat × List Char) :=
  match names with
  | [] => none
  | n :: rest =>
    if lowerEq (s.take n.length) n then some (idx, s.drop n.length)
    else findName rest (idx + 1) s

/-- `strptime`'s `%d` field applied to the digit string `ds` (which must be
the whole remaining input): one or two decimal digits with value 1–31. -/
def parseDayDigits (ds : List Char) : Except PyError Nat :=
  if ds.all Char.isDigit ∧ (ds.length = 1 ∨ ds.length = 2) ∧
      1 ≤ digitsVal ds ∧ digitsVal ds ≤ 31 then .ok (digitsVal ds)
  else .error .valueError

/-- `datetime.strptime(date_str, "%b %d")`: abbreviated month, whitespace,
day; the resulting date is validated against the default year 1900
(so "Feb 29" raises ValueError). -/
def strptime_b_d (date_str : List Char) : Except PyError (Nat × Nat) :=
  match findName monthAbbrevs 1 date_str with
  | none => .error .valueError
  | some (m, rest) =>
    match rest with
    | c :: _ =>
      if pyIsSpace c then
        match parseDayDigits (rest.dropWhile pyIsSpace) with
        | .error e => .error e
        | .ok d => if d ≤ monthLength 1900 m then .ok (m, d) else .error .valueError
      else .error .valueError
    | [] => .error .valueError

/-- After the day of "%B %d, %A": the literal comma, whitespace, and a full
weekday name consuming the rest of the input (the weekday is parsed but not
checked against the date). -/
def weekdayTailOk (t : List Char) : Bool :=
  match t with
  | ',' :: c2 :: tail =>
    pyIsSpace c2 &&
      (match findName weekdayFullNames 1 ((c2 :: tail).dropWhile pyIsSpace) with
       | some (_, []) => true
       | _ => false)
  | _ => false

/-- `datetime.strptime(date_str, "%B %d, %A")` (the fallback date format):
full month name, whitespace, day, the literal comma, whitespace, a full
weekday name, end of input; validated against the default year 1900.  All
failure branches raise the same ValueError, so the checks are combined into
one guard. -/
def strptime_B_d_A (date_str : List Char) : Except PyError (Nat × Nat) :=
  match findName monthFullNames 1 date_str with
  | none => .error .valueError
  | some (m, rest) =>
    match rest with
    | c :: _ =>
      match parseDayDigits ((rest.dropWhile pyIsSpace).takeWhile Char.isDigit) with
      | .error e => .error e
      | .ok d =>
        if pyIsSpace c ∧ weekdayTailOk ((rest.dropWhile pyIsSpace).dropWhile Char.isDigit) ∧
            d ≤ monthLength 1900 m then
          .ok (m, d)
        else .error .valueError
    | [] => .error .valueError

/-- `datetime.strptime(time_str, "%H:%M").time()`: one or two digits of hour
(0–23), a colon, one or two digits of minute (0–59), end of input. -/
def strptime_HM (time_str : List Char) : Except PyError (Nat × Nat) :=
  match splitChar ':' time_str with
  | [hs, ms] =>
    if hs.all Char.isDigit ∧ (hs.length = 1 ∨ hs.length = 2) ∧ digitsVal hs ≤ 23 ∧
        ms.all Char.isDigit ∧ (ms.length = 1 ∨ ms.length = 2) ∧ digitsVal ms ≤ 59 then
      .ok (digitsVal hs, digitsVal ms)
    else .error .valueError
  | _ => .error .valueError

/-- `convert_to_datetime(date_str, time_str, airport_code)`: looks up the
airport's timezone (KeyError if unknown), parses the date with "%b %d"
falling back to "%B %d, %A", parses the time with "%H:%M", substitutes the
current wall-clock year (`datetime.now().year`, here the explicit parameter
`nowYear`), and localizes into the airport's zone.  The final
`.replace(year=...)` check always passes because the parsed day is valid in
year 1900 and hence in every year, so the datetime is built directly. -/
def convert_to_datetime (nowYear : Nat) (date_str time_str airport_code : List Char) :
    Except PyError PyDateTime := do
  let arec ← match airportsTable airport_code with
             | some a => Except.ok a
             | none => Except.error PyError.keyError
  let md ← match strptime_b_d date_str with
           | .ok md => Except.ok md
           | .error _ => strptime_B_d_A date_str
  let hm ← strptime_HM time_str
  .ok { year := nowYear, month := md.1, day := md.2, hour := hm.1, minute := hm.2,
        second := 0, offset := tzLocalOffset arec.tz nowYear md.1 md.2 hm.1 hm.2,
        tz := arec.tz }

/-- `parse_duration`: mutable `hours`/`minutes` both 0; when "h" occurs, the
part before the first "h" (stripped) goes through `int()` and the string
shrinks to the stripped part after that "h"; when "m" then occurs, the part
before the first "m" (stripped) goes through `int()`. -/
def parse_duration (duration_str : List Char) : Except PyError Int := do
  let hs ← if 'h' ∈ duration_str then
             pyInt (pyStrip ((splitChar 'h' duration_str).getD 0 []))
           else Except.ok 0
  let rest := if 'h' ∈ duration_str then
                pyStrip ((splitChar 'h' duration_str).getD 1 [])
              else duration_str
  let ms ← if 'm' ∈ rest then
             pyInt (pyStrip ((splitChar 'm' rest).getD 0 []))
           else Except.ok 0
  .ok (minutesTd (hs * 60 + ms))

/-- `parse_response.parse_datetime`: splits a combined date+time string on
`", "`; with more than one part, returns parts 0 and 1; otherwise the whole
string with an empty time; an empty input gives two empty strings. -/
def parse_datetime (datetime_str : List Char) : List Char × List Char :=
  if datetime_str.isEmpty then ([], [])
  else
    let parts := splitCommaSpace datetime_str
    if 1 < parts.length then (parts.getD 0 [], parts.getD 1 [])
    else (parts.getD 0 [], [])

/-- `process_flight_info`: builds the `FlightInfo` dataclass from the raw
field mapping.  Fields are evaluated in the order of the constructor call in
the source, so the first exception (KeyError from an unknown airport city
lookup, then date/time/duration ValueErrors) is the one raised; country
resolution raises nothing and may yield `none`. -/
def process_flight_info (nowYear : Nat) (raw : RawFieldSet) : Except PyError FlightInfo := do
  let departure_airport := extract_airport_code raw.departure_airport
  let arrival_airport := extract_airport_code raw.arrival_airport
  let departure_country := extract_country raw.departure_country
  let arrival_country := extract_country raw.arrival_country
  let departure_city ← extract_city_from_airport departure_airport
  let arrival_city ← extract_city_from_airport arrival_airport
  let departure_time ← convert_to_datetime nowYear raw.departure_date raw.departure_time
                         departure_airport
  let arrival_time ← convert_to_datetime nowYear raw.arrival_date raw.arrival_time
                       arrival_airport
  let dur ← parse_duration raw.duration
  .ok { flight_number := raw.flight_number, airline := raw.airline,
        departure_airport, arrival_airport, departure_country, arrival_country,
        departure_city, arrival_city,
        departure_terminal := raw.departure_terminal,
        arrival_terminal := raw.arrival_terminal,
        departure_time, arrival_time, duration := dur, aircraft := raw.aircraft }

/-- `correct_flight_dates_inplace`: overwrites both timestamps' years with
the query date's year via `datetime.replace(year=...)` (modelled functionally). -/
def correct_flight_dates (qYear : Nat) (fi : FlightInfo) : Except PyError FlightInfo := do
  let dep ← pyReplaceYear qYear fi.departure_time
  let arr ← pyReplaceYear qYear fi.arrival_time
  .ok { fi with departure_time := dep, arrival_time := arr }

/-- `process_flight_info` followed by `correct_flight_dates_inplace`, the
normalization portion of the per-flight pipeline. -/
def run_pipeline (nowYear qYear : Nat) (raw : RawFieldSet) : Except PyError FlightInfo := do
  let fi ← process_flight_info nowYear raw
  correct_flight_dates qYear fi

/-- `get_flight_info`: the top-level per-flight operation.  The two
network/HTML stages (`make_flight_info_request` and `parse_response`) are
supplied as the oracle `fetched`: an error for an HTTP failure
(`requests.exceptions.HTTPError`) or a flight-not-found failure
(`RuntimeError`), `none` for a page with no data for the date (the falsy
empty dict), and `some raw` otherwise.  The `try/except` catches exactly
`(requests.exceptions.HTTPError, RuntimeError)` and converts them to `None`;
every other exception escapes. -/
def get_flight_info (fetched : Except PyError (Option RawFieldSet)) (nowYear qYear : Nat) :
    Except PyError (Option FlightInfo) :=
  let run : Except PyError (Option FlightInfo) := do
    let parsed ← fetched
    match parsed with
    | none => Except.ok none
    | some raw => do
      let fi ← run_pipeline nowYear qYear raw
      Except.ok (some fi)
  match run with
  | .error .httpError => .ok none
  | .error .runtimeError => .ok none
  | r => r

/-! ## AI path: `src/datamodels.py` validators and `src/calendar_client.py` -/

/-- The pydantic `FlightInfo._terminal` field validator: `None` or a
blank/whitespace-only string becomes `None`; the stripped value, when a bare
digit string or a single letter, is expanded to "Terminal <value>"; any other
stripped non-empty value is returned as is. -/
def _terminal (v : Option (List Char)) : Option (List Char) :=
  match v with
  | none => none
  | some raw =>
    if (pyStrip raw).isEmpty then none
    else
      let s := pyStrip raw
      if pyIsDigit s ∨ (s.length = 1 ∧ pyIsAlpha s) then
        some ((r"Terminal ").toList ++ s)
      else some s

/-- Python `s.replace(old, new)` for a single-character `old`. -/
def pyReplaceAll (c : Char) (repl : List Char) : List Char → List Char
  | [] => []
  | x :: xs => (if x = c then repl else [x]) ++ pyReplaceAll c repl xs

/-- The components `datetime.fromisoformat` yields: a naive wall-clock
reading plus the explicit UTC offset (minutes), when one was present. -/
structure IsoDateTime where
  year : Nat
  month : Nat
  day : Nat
  hour : Nat
  minute : Nat
  second : Nat
  tzOff : Option Int
deriving DecidableEq, Repr

/-- Exactly `n` decimal digits at the front of `s`, and the rest. -/
def takeDigits (n : Nat) (s : List Char) : Option (Nat × List Char) :=
  let ds := s.take n
  if ds.length = n ∧ ds.all Char.isDigit then some (digitsVal ds, s.drop n) else none

/-- `datetime.fromisoformat` (fragment covering the strings exercised here):
"YYYY-MM-DD", optionally followed by a 'T' or ' ' separator, "HH:MM",
optional ":SS", and an optional UTC offset "+HH:MM" or "-HH:MM" (minutes,
with sign).  Field ranges are validated; anything else raises ValueError. -/
def fromisoformat (s : List Char) : Except PyError IsoDateTime :=
  match takeDigits 4 s with
  | none => .error .valueError
  | some (y, r1) =>
    match r1 with
    | '-' :: r2 =>
      match takeDigits 2 r2 with
      | none => .error .valueError
      | some (mo, r3) =>
        match r3 with
        | '-' :: r4 =>
          match takeDigits 2 r4 with
          | none => .error .valueError
          | some (d, r5) =>
            if ¬(1 ≤ y ∧ y ≤ 9999 ∧ 1 ≤ mo ∧ mo ≤ 12 ∧ 1 ≤ d ∧ d ≤ monthLength y mo) then
              .error .valueError
            else
              match r5 with
              | [] => .ok ⟨y, mo, d, 0, 0, 0, none⟩
              | sep :: r6 =>
                if sep = 'T' ∨ sep = ' ' then
                  match takeDigits 2 r6 with
                  | none => .error .valueError
                  | some (h, r7) =>
                    match r7 with
                    | ':' :: r8 =>
                      match takeDigits 2 r8 with
                      | none => .error .valueError
                      | some (mi, r9) =>
                        if ¬(h ≤ 23 ∧ mi ≤ 59) then .error .valueError
                        else
                          let parseOff : List Char → Except PyError (Option Int) :=
                            fun t =>
                              match t with
                              | [] => .ok none
                              | '+' :: t1 =>
                                match takeDigits 2 t1 with
                                | some (oh, ':' :: t2) =>
                                  match takeDigits 2 t2 with
                                  | some (om, []) =>
                                    if oh ≤ 23 ∧ om ≤ 59 then
                                      .ok (some ((oh * 60 + om : Nat) : Int))
                                    else .error .valueError
                                  | _ => .error .valueError
                                | _ => .error .valueError
                              | '-' :: t1 =>
                                match takeDigits 2 t1 with
                                | some (oh, ':' :: t2) =>
                                  match takeDigits 2 t2 with
                                  | some (om, []) =>
                                    if oh ≤ 23 ∧ om ≤ 59 then
                                      .ok (some (-((oh * 60 + om : Nat) : Int)))
                                    else .error .valueError
                                  | _ => .error .valueError
                                | _ => .error .valueError
                              | _ => .error .valueError
                          match r9 with
                          | ':' :: r10 =>
                            match takeDigits 2 r10 with
                            | none => .error .valueError
                            | some (sec, r11) =>
                              if sec ≤ 59 then
                                match parseOff r11 with
                                | .ok off => .ok ⟨y, mo, d, h, mi, sec, off⟩
                                | .error e => .error e
                              else .error .valueError
                          | _ =>
                            match parseOff r9 with
                            | .ok off => .ok ⟨y, mo, d, h, mi, 0, off⟩
                            | .error e => .error e
                    | _ => .error .valueError
                else .error .valueError
        | _ => .error .valueError
    | _ => .error .valueError

/-- `_localize_datetime(iso_str, airport_iata)`: replaces "Z" with "+00:00",
parses with `fromisoformat`, looks up the airport timezone (KeyError if the
IATA code is unknown), DISCARDS any parsed offset (`replace(tzinfo=None)`),
and localizes the bare wall-clock reading into the airport's zone. -/
def _localize_datetime (iso_str airport_iata : List Char) : Except PyError PyDateTime := do
  let p ← fromisoformat (pyReplaceAll 'Z' ((r"+00:00").toList) iso_str)
  let arec ← match airportsTable airport_iata with
             | some a => Except.ok a
             | none => Except.error PyError.keyError
  .ok { year := p.year, month := p.month, day := p.day, hour := p.hour,
        minute := p.minute, second := p.second,
        offset := tzLocalOffset arec.tz p.year p.month p.day p.hour p.minute,
        tz := arec.tz }

/-- The start and end instants (UTC seconds) of the calendar event published
by `create_or_update_gcal_event`: start is the departure time; end is the
arrival time unless `end <= start` (compared as instants, as Python compares
aware datetimes), in which case it is `departure_time + duration` — and
adding a `timedelta` to an aware datetime keeps its tzinfo, so the sum
denotes the instant shifted by exactly the duration. -/
def gcalEventBounds (flight_info : FlightInfo) : Int × Int :=
  let s := toUTCSeconds flight_info.departure_time
  let e := toUTCSeconds flight_info.arrival_time
  if e ≤ s then (s, s + flight_info.duration) else (s, e)

/-! ## Concrete fixtures -/

instance {ε α : Type} [DecidableEq ε] [DecidableEq α] : DecidableEq (Except ε α) :=
  fun x y =>
    match x, y with
    | .ok a, .ok b => decidable_of_iff (a = b) (by simp)
    | .error a, .error b => decidable_of_iff (a = b) (by simp)
    | .ok _, .error _ => isFalse (by simp)
    | .error _, .ok _ => isFalse (by simp)

/-- The spec's end-to-end fixture: flight LH 2206, Frankfurt (FRA) Germany →
Zurich (ZRH) Switzerland on Jul 19, duration "1h 5m". -/
def exampleRaw : RawFieldSet :=
  { flight_number := (r"LH 2206").toList, airline := (r"Lufthansa").toList,
    departure_airport := (r"Frankfurt (FRA)").toList,
    arrival_airport := (r"Zurich (ZRH)").toList,
    departure_time := (r"18:40").toList, arrival_time := (r"19:45").toList,
    departure_country := (r"Germany").toList, arrival_country := (r"Switzerland").toList,
    departure_date := (r"Jul 19").toList, arrival_date := (r"Jul 19").toList,
    departure_terminal := (r"1").toList, arrival_terminal := (r"").toList,
    duration := (r"1h 5m").toList, aircraft := (r"Airbus A320").toList }

/-- The record `process_flight_info` produces from `exampleRaw` with
wall-clock year 2025: both timestamps localized (Jul 19 is CEST, +120 min),
duration 65 minutes. -/
def exampleFlightInfo : FlightInfo :=
  { flight_number := (r"LH 2206").toList, airline := (r"Lufthansa").toList,
    departure_airport := (r"FRA").toList, arrival_airport := (r"ZRH").toList,
    departure_country := some germanyRec, arrival_country := some switzerlandRec,
    departure_city := (r"Frankfurt-am-Main").toList, arrival_city := (r"Zurich").toList,
    departure_terminal := (r"1").toList, arrival_terminal := [],
    departure_time := { year := 2025, month := 7, day := 19, hour := 18, minute := 40,
                        second := 0, offset := 120, tz := .europeBerlin },
    arrival_time := { year := 2025, month := 7, day := 19, hour := 19, minute := 45,
                      second := 0, offset := 120, tz := .europeZurich },
    duration := 3900, aircraft := (r"Airbus A320").toList }

/-- Sanity check: the full normalization of the spec's fixture. -/
theorem process_exampleRaw :
    process_flight_info 2025 exampleRaw = .ok exampleFlightInfo := by decide

/-- A raw field set whose departure and arrival dates straddle the calendar
year boundary (departure Dec 31, arrival Jan 1). -/
def rawNYE : RawFieldSet :=
  { exampleRaw with
    departure_date := (r"Dec 31").toList, departure_time := (r"23:55").toList,
    arrival_date := (r"Jan 1").toList, arrival_time := (r"4:30").toList }

/-- The pipeline output for `rawNYE` with query year 2025: both timestamps
carry year 2025, so the arrival now precedes the departure. -/
def fiNYE : FlightInfo :=
  { exampleFlightInfo with
    departure_time := { year := 2025, month := 12, day := 31, hour := 23, minute := 55,
                        second := 0, offset := 60, tz := .europeBerlin },
    arrival_time := { year := 2025, month := 1, day := 1, hour := 4, minute := 30,
                      second := 0, offset := 60, tz := .europeZurich } }

/-- A raw field set with times on Mar 29, the date of the 2026 (but not the
2025) spring DST transition of Europe/Berlin and Europe/Zurich. -/
def rawDST : RawFieldSet :=
  { exampleRaw with
    departure_date := (r"Mar 29").toList, departure_time := (r"03:30").toList,
    arrival_date := (r"Mar 29").toList, arrival_time := (r"04:30").toList }

/-- Pipeline output for `rawDST` when run with wall-clock year 2025 (query
year 2026): Mar 29 is still CET in 2025, so the baked-in offsets are +60. -/
def fiDST2025 : FlightInfo :=
  { exampleFlightInfo with
    departure_time := { year := 2026, month := 3, day := 29, hour := 3, minute := 30,
                        second := 0, offset := 60, tz := .europeBerlin },
    arrival_time := { year := 2026, month := 3, day := 29, hour := 4, minute := 30,
                      second := 0, offset := 60, tz := .europeZurich } }

/-- Pipeline output for `rawDST` when run with wall-clock year 2026 (query
year 2026): DST starts Mar 29 in 2026, so the baked-in offsets are +120. -/
def fiDST2026 : FlightInfo :=
  { exampleFlightInfo with
    departure_time := { year := 2026, month := 3, day := 29, hour := 3, minute := 30,
                        second := 0, offset := 120, tz := .europeBerlin },
    arrival_time := { year := 2026, month := 3, day := 29, hour := 4, minute := 30,
                      second := 0, offset := 120, tz := .europeZurich } }

/-- `exampleRaw` with an airport code absent from the reference table. -/
def rawUnknownAirport : RawFieldSet :=
  { exampleRaw with departure_airport := (r"Nowhere (XXX)").toList }

/-- `exampleRaw` with a country name no fuzzy matcher resolves. -/
def rawAtlantis : RawFieldSet :=
  { exampleRaw with departure_country := (r"Atlantis").toList }

/-- `exampleRaw` with the bare-digit departure terminal "2". -/
def rawTerminal2 : RawFieldSet :=
  { exampleRaw with departure_terminal := (r"2").toList }

/-! ## Counterexample theorems (concrete runs of the embedded code) -/

/-- C1 counterexample: a raw field set with an airport code absent from the
reference table makes `get_flight_info` raise KeyError (the `try/except`
catches only HTTPError and RuntimeError), instead of returning null. -/
theorem get_flight_info_unknown_airport_raises :
    get_flight_info (.ok (some rawUnknownAirport)) 2025 2025 = .error .keyError ∧
      get_flight_info (.ok (some rawUnknownAirport)) 2025 2025 ≠ .ok none := by decide

/-- C2 counterexample: with departure Dec 31 and arrival Jan 1, the
year-corrected pipeline output has arrival_time strictly before
departure_time. -/
theorem year_straddle_reverses_order :
    run_pipeline 2025 2025 rawNYE = .ok fiNYE ∧
      toUTCSeconds fiNYE.arrival_time < toUTCSeconds fiNYE.departure_time := by decide

/-- C3 counterexample: the same raw field set, normalized with the same
query year 2026 but at wall-clock years 2025 and 2026, gives different
FlightInfo values — the UTC offset baked in by `localize` is computed from
the wall-clock year (Mar 29 is CET in 2025 but already CEST in 2026) and is
not touched by the year correction. -/
theorem pipeline_depends_on_wallclock_year :
    run_pipeline 2025 2026 rawDST = .ok fiDST2025 ∧
      run_pipeline 2026 2026 rawDST = .ok fiDST2026 ∧ fiDST2025 ≠ fiDST2026 := by decide

/-- C4 counterexample: the scraper-path normalizer `process_flight_info`
passes the raw terminal string "2" through verbatim instead of expanding it
to "Terminal 2". -/
theorem process_terminal_passthrough :
    process_flight_info 2025 rawTerminal2 =
        .ok { exampleFlightInfo with departure_terminal := (r"2").toList } ∧
      (r"2").toList ≠ (r"Terminal 2").toList := by decide

/-- C5 counterexample: an unresolvable country name is not a hard failure —
`process_flight_info` succeeds and produces a FlightInfo whose
departure_country is `none` (the fuzzy matcher returns "not found" and the
pycountry lookup returns `None`, which the dataclass accepts). -/
theorem unresolvable_country_no_failure :
    process_flight_info 2025 rawAtlantis =
      .ok { exampleFlightInfo with departure_country := none } := by decide

/-- C8 counterexample: with two comma-space boundaries, the time portion is
the middle field of the split, not the entire remainder after the first
boundary. -/
theorem parse_datetime_drops_after_second_boundary :
    parse_datetime ((r"Jul 19, 07:55, extra").toList) =
        ((r"Jul 19").toList, (r"07:55").toList) ∧
      (r"07:55").toList ≠ (r"07:55, extra").toList := by decide

/-! ## C9: calendar event bounds -/

/-- C9: in the calendar upsert, the event start is the departure instant;
when arrival ≤ departure the end is departure plus the parsed duration,
otherwise it is the arrival unchanged; with a positive duration the end is
strictly after the start. -/
theorem gcal_end_after_start (fi : FlightInfo) (hd : 0 < fi.duration) :
    (gcalEventBounds fi).1 = toUTCSeconds fi.departure_time ∧
      (toUTCSeconds fi.arrival_time ≤ toUTCSeconds fi.departure_time →
        (gcalEventBounds fi).2 = toUTCSeconds fi.departure_time + fi.duration) ∧
      (toUTCSeconds fi.departure_time < toUTCSeconds fi.arrival_time →
        (gcalEventBounds fi).2 = toUTCSeconds fi.arrival_time) ∧
      (gcalEventBounds fi).1 < (gcalEventBounds fi).2 := by
  rcases le_or_lt (toUTCSeconds fi.arrival_time) (toUTCSeconds fi.departure_time) with h | h
  · have hb : gcalEventBounds fi =
        (toUTCSeconds fi.departure_time, toUTCSeconds fi.departure_time + fi.duration) := by
      simp [gcalEventBounds, h]
    rw [hb]
    exact ⟨rfl, fun h2 => rfl, fun h3 => absurd h (not_le.mpr h3), by omega⟩
  · have hb : gcalEventBounds fi =
        (toUTCSeconds fi.departure_time, toUTCSeconds fi.arrival_time) := by
      simp [gcalEventBounds, not_le.mpr h]
    rw [hb]
    exact ⟨rfl, fun h2 => absurd h2 (not_le.mpr h), fun h3 => rfl, h⟩

/-- Witness for `gcal_end_after_start` at the concrete fixture record. -/
theorem gcal_end_after_start_witness :
    (0 : Int) < exampleFlightInfo.duration ∧
      (gcalEventBounds exampleFlightInfo).1 < (gcalEventBounds exampleFlightInfo).2 :=
  ⟨by decide, (gcal_end_after_start exampleFlightInfo (by decide)).2.2.2⟩

/-! ## C4 (amended): the pydantic terminal validator -/

/-- C4 (amended): the terminal rule lives in the pydantic `_terminal`
validator: `None`/blank → `None`; a stripped bare digit string or single
letter expands to "Terminal <value>"; any other stripped non-blank value is
returned stripped but otherwise unchanged.  (The scraper-path
`process_flight_info` performs no terminal normalization at all; see the
counterexample.) -/
theorem terminal_validator_spec (v : List Char) :
    _terminal none = none ∧
      ((pyStrip v).isEmpty → _terminal (some v) = none) ∧
      (¬(pyStrip v).isEmpty →
        (pyIsDigit (pyStrip v) ∨ ((pyStrip v).length = 1 ∧ pyIsAlpha (pyStrip v)) →
          _terminal (some v) = some ((r"Terminal ").toList ++ pyStrip v)) ∧
        (¬(pyIsDigit (pyStrip v) ∨ ((pyStrip v).length = 1 ∧ pyIsAlpha (pyStrip v))) →
          _terminal (some v) = some (pyStrip v))) := by
  refine ⟨rfl, fun hb => ?_, fun hb => ⟨fun hd => ?_, fun hd => ?_⟩⟩ <;>
    simp only [_terminal] <;> simp_all

/-- Witness for `terminal_validator_spec`: "2" expands to "Terminal 2". -/
theorem terminal_validator_spec_witness :
    _terminal (some ((r"2").toList)) = some ((r"Terminal 2").toList) := by
  have h := (terminal_validator_spec ((r"2").toList)).2.2 (by decide)
  exact h.1 (by decide)

/-! ## C1 (amended): the per-flight exception boundary -/

/-- C1 (amended): `get_flight_info` converts HTTP failures and
flight-not-found failures (RuntimeError) to null, and a no-data-for-date
page also yields null; but any exception that escapes it is a normalization
failure (KeyError or ValueError), which the `try/except` does NOT catch —
such failures propagate and abort the batch. -/
theorem get_flight_info_spec (fetched : Except PyError (Option RawFieldSet)) (ny qy : Nat) :
    (fetched = .error .httpError ∨ fetched = .error .runtimeError →
      get_flight_info fetched ny qy = .ok none) ∧
      (fetched = .ok none → get_flight_info fetched ny qy = .ok none) ∧
      (∀ e, get_flight_info fetched ny qy = .error e →
        e = .keyError ∨ e = .valueError) := by
  refine ⟨fun h => ?_, fun h => ?_, fun e he => ?_⟩
  · rcases h with h | h <;> subst h <;> rfl
  · subst h; rfl
  · unfold get_flight_info at he
    rcases hr : (do
        let parsed ← fetched
        match parsed with
        | none => Except.ok none
        | some raw => do
          let fi ← run_pipeline ny qy raw
          Except.ok (some fi) : Except PyError (Option FlightInfo)) with a | b
    · rw [hr] at he
      cases a <;> simp_all
    · rw [hr] at he
      cases b <;> simp_all

/-- Witness for `get_flight_info_spec`: an HTTP failure yields null. -/
theorem get_flight_info_spec_witness :
    get_flight_info (.error .httpError) 2025 2025 = .ok none :=
  (get_flight_info_spec (.error .httpError) 2025 2025).1 (Or.inl rfl)

/-! ## C10: AI-path time localization -/

/-- The localized datetime `_localize_datetime` builds: the bare wall-clock
reading reinterpreted in the airport's zone. -/
def localizedAt (tz : Tz) (y mo d h mi sec : Nat) : PyDateTime :=
  { year := y, month := mo, day := d, hour := h, minute := mi, second := sec,
    offset := tzLocalOffset tz y mo d h mi, tz := tz }

/-- C10: for every ISO string carrying an explicit offset (or a trailing
"Z", which `replace` turns into "+00:00"), `_localize_datetime` discards the
offset and reinterprets the bare wall-clock time in the airport's IANA zone;
whenever that zone's offset differs from the discarded one, the result
denotes a different instant than the input did. -/
theorem localize_discards_offset (iso airport_iata : List Char) (a : AirportRec)
    (y mo d h mi sec : Nat) (off : Int)
    (hap : airportsTable airport_iata = some a)
    (hiso : fromisoformat (pyReplaceAll 'Z' ((r"+00:00").toList) iso) =
      .ok ⟨y, mo, d, h, mi, sec, some off⟩) :
    _localize_datetime iso airport_iata = .ok (localizedAt a.tz y mo d h mi sec) ∧
      (tzLocalOffset a.tz y mo d h mi ≠ off →
        toUTCSeconds (localizedAt a.tz y mo d h mi sec) ≠
          toUTCSeconds { localizedAt a.tz y mo d h mi sec with offset := off }) := by
  constructor
  · unfold _localize_datetime
    rw [hiso, hap]
    rfl
  · intro hne
    simp only [toUTCSeconds, localizedAt, naiveSeconds]
    omega

/-- Witness for `localize_discards_offset`: "2025-07-19T18:40:00Z" at FRA
localizes to 18:40 Europe/Berlin (CEST, +120), not 18:40 UTC. -/
theorem localize_discards_offset_witness :
    _localize_datetime ((r"2025-07-19T18:40:00Z").toList) ((r"FRA").toList) =
        .ok (localizedAt .europeBerlin 2025 7 19 18 40 0) ∧
      toUTCSeconds (localizedAt .europeBerlin 2025 7 19 18 40 0) ≠
        toUTCSeconds { localizedAt .europeBerlin 2025 7 19 18 40 0 with offset := 0 } := by
  have h := localize_discards_offset ((r"2025-07-19T18:40:00Z").toList) ((r"FRA").toList)
    ⟨(r"Frankfurt-am-Main").toList, .europeBerlin⟩ 2025 7 19 18 40 0 0
    (by decide) (by decide)
  exact ⟨h.1, h.2 (by decide)⟩

/-! ## String lemmas -/

theorem dropWhile_eq_self_of (p : Char → Bool) (s : List Char)
    (h : ∀ x ∈ s, p x = false) : s.dropWhile p = s := by
  cases s with
  | nil => rfl
  | cons x xs => simp [List.dropWhile, h x (List.mem_cons_self x xs)]

theorem pyStrip_eq_self (s : List Char) (h : ∀ x ∈ s, pyIsSpace x = false) :
    pyStrip s = s := by
  unfold pyStrip
  rw [dropWhile_eq_self_of pyIsSpace s h]
  rw [dropWhile_eq_self_of pyIsSpace s.reverse (fun x hx => h x (List.mem_reverse.mp hx))]
  exact List.reverse_reverse s

theorem pyStrip_cons_space (s : List Char) : pyStrip (' ' :: s) = pyStrip s := by
  unfold pyStrip
  have : pyIsSpace ' ' = true := by decide
  simp [List.dropWhile, this]

theorem digit_not_space (c : Char) (h : c.isDigit = true) : pyIsSpace c = false := by
  simp only [pyIsSpace, decide_eq_false_iff_not]
  rintro (rfl | rfl | rfl | rfl) <;> simp_all

theorem not_mem_of_all_digit (c : Char) (hc : c.isDigit = false) (s : List Char)
    (h : s.all Char.isDigit = true) : c ∉ s := by
  intro hm
  have := (List.all_eq_true.mp h) c hm
  simp_all

theorem pyInt_digits (s : List Char) (h1 : s ≠ []) (h2 : s.all Char.isDigit = true) :
    pyInt s = .ok (digitsVal s) := by
  have hstrip : pyStrip s = s :=
    pyStrip_eq_self s (fun x hx => digit_not_space x ((List.all_eq_true.mp h2) x hx))
  unfold pyInt
  rw [hstrip]
  rcases s with _ | ⟨c, cs⟩
  · exact absurd rfl h1
  · have hc : c.isDigit = true := (List.all_eq_true.mp h2) c (List.mem_cons_self c cs)
    have hminus : c ≠ '-' := by rintro rfl; simp_all
    have hplus : c ≠ '+' := by rintro rfl; simp_all
    have hdig : pyIsDigit (c :: cs) = true := by
      simp [pyIsDigit, h2]
    split
    · simp_all
    · simp_all
    · rw [if_pos hdig]

theorem splitChar_not_mem (c : Char) (s : List Char) (h : c ∉ s) :
    splitChar c s = [s] := by
  induction s with
  | nil => rfl
  | cons x xs ih =>
    have hx : x ≠ c := fun he => h (he ▸ List.mem_cons_self x xs)
    have hxs : c ∉ xs := fun hm => h (List.mem_cons_of_mem x hm)
    simp [splitChar, hx, ih hxs]

theorem splitChar_append (c : Char) (a b : List Char) (h : c ∉ a) :
    splitChar c (a ++ c :: b) = a :: splitChar c b := by
  induction a with
  | nil => simp [splitChar]
  | cons x xs ih =>
    have hx : x ≠ c := fun he => h (he ▸ List.mem_cons_self x xs)
    have hxs : c ∉ xs := fun hm => h (List.mem_cons_of_mem x hm)
    simp [splitChar, hx, ih hxs]

/-! ## C6: duration parsing -/

theorem all_digit_strip (s : List Char) (hd : s.all Char.isDigit = true) :
    pyStrip s = s :=
  pyStrip_eq_self s (fun x hx => digit_not_space x ((List.all_eq_true.mp hd) x hx))

theorem strip_digits_m (ms : List Char) (hd : ms.all Char.isDigit = true) :
    pyStrip (ms ++ ['m']) = ms ++ ['m'] := by
  refine pyStrip_eq_self _ (fun x hx => ?_)
  rcases List.mem_append.mp hx with h | h
  · exact digit_not_space x ((List.all_eq_true.mp hd) x h)
  · have : x = 'm' := by simpa using h
    subst this; decide

/-- C6: for well-formed duration strings — digit strings `hs`, `ms` standing
for the H and M components — `parse_duration` returns H hours plus M minutes
for "Hh Mm", H hours for "Hh", M minutes for "Mm", and the zero duration for
any string containing neither an "h" nor an "m" (in particular ""). -/
theorem parse_duration_spec (hs ms : List Char) (h1 : hs ≠ []) (h2 : ms ≠ [])
    (hd1 : hs.all Char.isDigit = true) (hd2 : ms.all Char.isDigit = true) :
    parse_duration (hs ++ 'h' :: ' ' :: (ms ++ ['m'])) =
        .ok (minutesTd ((digitsVal hs : Int) * 60 + (digitsVal ms : Int))) ∧
      parse_duration (hs ++ ['h']) = .ok (minutesTd ((digitsVal hs : Int) * 60)) ∧
      parse_duration (ms ++ ['m']) = .ok (minutesTd ((digitsVal ms : Int))) ∧
      (∀ s : List Char, 'h' ∉ s → 'm' ∉ s → parse_duration s = .ok (minutesTd 0)) := by
  have hhh : ('h' : Char) ∉ hs := not_mem_of_all_digit 'h' (by decide) hs hd1
  have hhm : ('m' : Char) ∉ ms := not_mem_of_all_digit 'm' (by decide) ms hd2
  have hh2 : ('h' : Char) ∉ (' ' :: (ms ++ ['m'])) := by
    intro hm
    rcases List.mem_cons.mp hm with h | h
    · exact absurd h (by decide)
    · rcases List.mem_append.mp h with h | h
      · exact not_mem_of_all_digit 'h' (by decide) ms hd2 h
      · exact absurd h (by decide)
  refine ⟨?_, ?_, ?_, ?_⟩
  · have hmem : ('h' : Char) ∈ hs ++ 'h' :: ' ' :: (ms ++ ['m']) := by simp
    have hsplit : splitChar 'h' (hs ++ 'h' :: ' ' :: (ms ++ ['m'])) =
        [hs, ' ' :: (ms ++ ['m'])] := by
      rw [splitChar_append 'h' hs _ hhh, splitChar_not_mem 'h' _ hh2]
    have hmemm : ('m' : Char) ∈ ms ++ ['m'] := by simp
    have hsplitm : splitChar 'm' (ms ++ ['m']) = [ms, []] := by
      rw [splitChar_append 'm' ms [] hhm]; rfl
    simp only [parse_duration, if_pos hmem, hsplit, List.getD_cons_zero, List.getD_cons_succ,
      all_digit_strip hs hd1, pyInt_digits hs h1 hd1, pyStrip_cons_space,
      strip_digits_m ms hd2, if_pos hmemm, hsplitm, all_digit_strip ms hd2,
      pyInt_digits ms h2 hd2, Except.bind]
    simp only [bind, Except.bind]
  · have hmem : ('h' : Char) ∈ hs ++ ['h'] := by simp
    have hsplit : splitChar 'h' (hs ++ ['h']) = [hs, []] := by
      rw [show hs ++ ['h'] = hs ++ 'h' :: [] from rfl, splitChar_append 'h' hs [] hhh]; rfl
    have hnm : ('m' : Char) ∉ pyStrip ([] : List Char) := by decide
    simp only [parse_duration, if_pos hmem, hsplit, List.getD_cons_zero, List.getD_cons_succ,
      all_digit_strip hs hd1, pyInt_digits hs h1 hd1, Except.bind, if_neg hnm]
    simp only [bind, Except.bind]
    simp only [minutesTd, Except.ok.injEq]
    ring
  · have hnh : ('h' : Char) ∉ ms ++ ['m'] := by
      intro hm
      rcases List.mem_append.mp hm with h | h
      · exact not_mem_of_all_digit 'h' (by decide) ms hd2 h
      · exact absurd h (by decide)
    have hmemm : ('m' : Char) ∈ ms ++ ['m'] := by simp
    have hsplitm : splitChar 'm' (ms ++ ['m']) = [ms, []] := by
      rw [splitChar_append 'm' ms [] hhm]; rfl
    simp only [parse_duration, if_neg hnh, if_pos hmemm, hsplitm, List.getD_cons_zero,
      all_digit_strip ms hd2, pyInt_digits ms h2 hd2, Except.bind]
    simp only [bind, Except.bind]
    simp only [minutesTd, Except.ok.injEq]
    ring
  · intro s hnh hnm
    simp only [parse_duration, if_neg hnh, if_neg hnm, Except.bind]
    simp only [bind, Except.bind]
    simp [minutesTd]

/-- Witness for `parse_duration_spec`: "2h 5m" is 125 minutes (and "2h" is
120, "5m" is 5, "" is 0). -/
theorem parse_duration_spec_witness :
    parse_duration ((r"2h 5m").toList) = .ok (minutesTd 125) ∧
      parse_duration ((r"2h").toList) = .ok (minutesTd 120) ∧
      parse_duration ((r"5m").toList) = .ok (minutesTd 5) ∧
      parse_duration ((r"").toList) = .ok (minutesTd 0) := by
  have h := parse_duration_spec ['2'] ['5'] (by decide) (by decide) (by decide) (by decide)
  exact ⟨h.1, h.2.1, h.2.2.1, h.2.2.2 [] (by decide) (by decide)⟩

/-! ## C8 (amended): the combined date+time split -/

theorem splitCommaSpace_ne_nil (s : List Char) : splitCommaSpace s ≠ [] := by
  match s with
  | [] => simp [splitCommaSpace]
  | [x] => simp [splitCommaSpace]
  | x :: y :: xs =>
    simp only [splitCommaSpace]
    split
    · simp
    · simp

theorem splitCommaSpace_no_boundary : ∀ (s : List Char),
    hasSub [',', ' '] s = false → splitCommaSpace s = [s]
  | [], _ => rfl
  | [x], _ => rfl
  | x :: y :: xs, h => by
    have hparts := Bool.or_eq_false_iff.mp h
    have hnp : ¬(x = ',' ∧ y = ' ') := by
      intro hxy
      rcases hxy with ⟨rfl, rfl⟩
      simp [List.isPrefixOf] at hparts
    have ih := splitCommaSpace_no_boundary (y :: xs) hparts.2
    simp [splitCommaSpace, hnp, ih]

theorem splitCommaSpace_append : ∀ (a b : List Char),
    hasSub [',', ' '] a = false →
    splitCommaSpace (a ++ ',' :: ' ' :: b) = a :: splitCommaSpace b
  | [], b, _ => by simp [splitCommaSpace]
  | [x], b, _ => by
    have h1 : ¬(x = ',' ∧ (',' : Char) = ' ') := by
      rintro ⟨-, h⟩; exact absurd h (by decide)
    simp [splitCommaSpace, h1]
  | x :: y :: a', b, h => by
    have hparts := Bool.or_eq_false_iff.mp h
    have hnp : ¬(x = ',' ∧ y = ' ') := by
      intro hxy
      rcases hxy with ⟨rfl, rfl⟩
      simp [List.isPrefixOf] at hparts
    have ih := splitCommaSpace_append (y :: a') b hparts.2
    simp only [List.cons_append] at ih ⊢
    simp [splitCommaSpace, hnp, ih]

/-- C8 (amended): `parse_datetime` splits on the `", "` boundary, but the
time portion is only the field between the first and second boundary (the
second element of the full split), not the entire remainder; a string with
no `", "` boundary (in particular one with no comma) becomes the date with
an empty time, and the empty string gives two empty strings. -/
theorem parse_datetime_spec (a b : List Char) (ha : hasSub [',', ' '] a = false) :
    parse_datetime (a ++ ',' :: ' ' :: b) = (a, (splitCommaSpace b).headD []) ∧
      (∀ s : List Char, s ≠ [] → hasSub [',', ' '] s = false → parse_datetime s = (s, [])) ∧
      parse_datetime [] = ([], []) := by
  refine ⟨?_, fun s hs hns => ?_, rfl⟩
  · have hne : (a ++ ',' :: ' ' :: b).isEmpty = false := by
      cases a <;> simp
    have hsplit := splitCommaSpace_append a b ha
    have hlen : 1 < (splitCommaSpace (a ++ ',' :: ' ' :: b)).length := by
      rw [hsplit]
      have := List.length_pos.mpr (splitCommaSpace_ne_nil b)
      simp
      omega
    simp only [parse_datetime, hne, Bool.false_eq_true, if_false, hsplit, if_pos hlen]
    rcases hb : splitCommaSpace b with _ | ⟨t, ts⟩
    · exact absurd hb (splitCommaSpace_ne_nil b)
    · simp [hsplit, hb]
  · have hne : s.isEmpty = false := by cases s <;> simp_all
    have hsplit := splitCommaSpace_no_boundary s hns
    have hlen : ¬(1 < (splitCommaSpace s).length) := by rw [hsplit]; simp
    simp [parse_datetime, hne, hsplit, hlen]

/-- Witness for `parse_datetime_spec`: "Jul 19, 07:55" splits into
("Jul 19", "07:55"), and "Jul 19" alone gives ("Jul 19", ""). -/
theorem parse_datetime_spec_witness :
    parse_datetime (((r"Jul 19").toList) ++ ',' :: ' ' :: ((r"07:55").toList)) =
        ((r"Jul 19").toList, (r"07:55").toList) ∧
      parse_datetime ((r"Jul 19").toList) = ((r"Jul 19").toList, []) := by
  have h := parse_datetime_spec ((r"Jul 19").toList) ((r"07:55").toList) (by decide)
  constructor
  · rw [h.1]; decide
  · exact h.2.1 ((r"Jul 19").toList) (by decide) (by decide)

/-! ## C5 (amended): country resolution -/

theorem splitChar_ne_nil (c : Char) (s : List Char) : splitChar c s ≠ [] := by
  induction s with
  | nil => simp [splitChar]
  | cons x xs ih =>
    simp only [splitChar]
    split <;> simp

theorem splitChar_length_two (c : Char) (s : List Char) (h : c ∈ s) :
    2 ≤ (splitChar c s).length := by
  induction s with
  | nil => simp at h
  | cons x xs ih =>
    simp only [splitChar]
    split
    · have := List.length_pos.mpr (splitChar_ne_nil c xs)
      simp only [List.length_cons]
      omega
    · rename_i hx
      have hc : c ∈ xs := by
        rcases List.mem_cons.mp h with h1 | h1
        · exact absurd h1.symm (by simpa using hx)
        · exact h1
      have h2 := ih hc
      simp only [List.length_cons, List.length_tail]
      omega

theorem getLastD_irrel {α : Type} (l : List α) (h : l ≠ []) (d1 d2 : α) :
    l.getLastD d1 = l.getLastD d2 := by
  induction l with
  | nil => exact absurd rfl h
  | cons x xs ih =>
    cases xs with
    | nil => rfl
    | cons y ys => simp only [List.getLastD_cons]

theorem splitChar_cons_self (c : Char) (s : List Char) :
    splitChar c (c :: s) = [] :: splitChar c s := by
  simp [splitChar]

theorem splitChar_cons_ne (c x : Char) (s : List Char) (hx : x ≠ c) :
    splitChar c (x :: s) = (x :: (splitChar c s).headD []) :: (splitChar c s).tail := by
  simp [splitChar, hx]

theorem splitChar_getLast (c : Char) : ∀ (a b : List Char), c ∉ b →
    (splitChar c (a ++ c :: b)).getLastD [] = b
  | [], b, hb => by
    rw [List.nil_append, splitChar_cons_self, List.getLastD_cons,
      splitChar_not_mem c b hb]
    rfl
  | x :: a', b, hb => by
    have ih := splitChar_getLast c a' b hb
    by_cases hx : x = c
    · subst hx
      rw [List.cons_append, splitChar_cons_self, List.getLastD_cons]
      exact ih
    · have hcm : c ∈ a' ++ c :: b := by simp
      have hlen := splitChar_length_two c (a' ++ c :: b) hcm
      rw [List.cons_append, splitChar_cons_ne c x _ hx, List.getLastD_cons]
      rcases hr : splitChar c (a' ++ c :: b) with _ | ⟨p, tl⟩
      · exact absurd hr (splitChar_ne_nil c _)
      · have htl : tl ≠ [] := by
          rw [hr] at hlen
          simp only [List.length_cons] at hlen
          intro hn
          subst hn
          simp at hlen
        have h2 : (p :: tl).getLastD [] = tl.getLastD p := by rw [List.getLastD_cons]
        rw [hr, h2] at ih
        simp only [List.headD_cons, List.tail_cons]
        rw [getLastD_irrel tl htl (x :: p) p]
        exact ih

/-- C5 (amended): country resolution takes the stripped portion after the
LAST comma (the whole string, unstripped, when no comma is present) and
resolves it through the fuzzy matcher and the pycountry table; "Berlin,
Germany" and bare "Germany" both give the record for Germany.  An
unresolvable name is NOT a hard failure: the lookup yields `none` (see the
counterexample for the resulting FlightInfo with an absent country). -/
theorem extract_country_spec (a b : List Char) (hb : ',' ∉ b) :
    extract_country (a ++ ',' :: b) = pycountryGetAlpha3 (cocoConvert (pyStrip b)) ∧
      (∀ s : List Char, ',' ∉ s → extract_country s = pycountryGetAlpha3 (cocoConvert s)) ∧
      extract_country ((r"Berlin, Germany").toList) = some germanyRec ∧
      extract_country ((r"Germany").toList) = some germanyRec ∧
      extract_country ((r"Atlantis").toList) = none := by
  refine ⟨?_, fun s hs => ?_, by decide, by decide, by decide⟩
  · have hmem : (',' : Char) ∈ a ++ ',' :: b := by simp
    simp only [extract_country, if_pos hmem, splitChar_getLast ',' a b hb]
  · simp only [extract_country, if_neg hs]

/-- Witness for `extract_country_spec` at "Berlin" / " Germany". -/
theorem extract_country_spec_witness :
    extract_country (((r"Berlin").toList) ++ ',' :: ((r" Germany").toList)) =
      some germanyRec := by
  have h := (extract_country_spec ((r"Berlin").toList) ((r" Germany").toList) (by decide)).1
  rw [h]; decide

/-! ## C7: year correction is exactly a year overwrite -/

theorem parseDayDigits_bounds (ds : List Char) (d : Nat) (h : parseDayDigits ds = .ok d) :
    1 ≤ d ∧ d ≤ 31 := by
  unfold parseDayDigits at h
  split_ifs at h with hc
  cases h
  exact ⟨hc.2.2.1, hc.2.2.2⟩

theorem findName_bounds (names : List (List Char)) (idx : Nat) (s : List Char)
    (m : Nat) (rest : List Char) (h : findName names idx s = some (m, rest)) :
    idx ≤ m ∧ m < idx + names.length := by
  induction names generalizing idx with
  | nil => simp [findName] at h
  | cons n ns ih =>
    unfold findName at h
    split_ifs at h with hc
    · cases h
      simp
    · have := ih (idx + 1) h
      simp only [List.length_cons]
      omega

theorem strptime_b_d_bounds (s : List Char) (m d : Nat)
    (h : strptime_b_d s = .ok (m, d)) :
    1 ≤ m ∧ m ≤ 12 ∧ 1 ≤ d ∧ d ≤ monthLength 1900 m := by
  unfold strptime_b_d at h
  repeat' split at h
  all_goals cases h
  all_goals rename_i hfind hday hml
  all_goals
    obtain ⟨h1, h2⟩ := findName_bounds _ _ _ _ _ hfind
    have hd := parseDayDigits_bounds _ _ hday
    have hlen : monthAbbrevs.length = 12 := by rfl
    rw [hlen] at h2
    exact ⟨h1, by omega, hd.1, hml⟩

theorem strptime_B_d_A_bounds (s : List Char) (m d : Nat)
    (h : strptime_B_d_A s = .ok (m, d)) :
    1 ≤ m ∧ m ≤ 12 ∧ 1 ≤ d ∧ d ≤ monthLength 1900 m := by
  unfold strptime_B_d_A at h
  repeat' split at h
  all_goals cases h
  all_goals rename_i hfind hday hcond
  all_goals
    obtain ⟨h1, h2⟩ := findName_bounds _ _ _ _ _ hfind
    have hd := parseDayDigits_bounds _ _ hday
    have hlen : monthFullNames.length = 12 := by rfl
    rw [hlen] at h2
    exact ⟨h1, by omega, hd.1, hcond.2.2⟩

theorem convert_ok_bounds (ny : Nat) (ds ts ap : List Char) (dt : PyDateTime)
    (h : convert_to_datetime ny ds ts ap = .ok dt) :
    1 ≤ dt.month ∧ dt.month ≤ 12 ∧ 1 ≤ dt.day ∧ dt.day ≤ monthLength 1900 dt.month ∧
      dt.year = ny := by
  unfold convert_to_datetime at h
  simp only [bind, Except.bind] at h
  repeat' split at h
  all_goals cases h
  all_goals
    first
    | (rename_i x1 a1 hap x2 md hmd x3 hm hhm
       exact (fun hb => ⟨hb.1, hb.2.1, hb.2.2.1, hb.2.2.2, rfl⟩)
         (strptime_b_d_bounds ds md.1 md.2 (by rw [Prod.mk.eta]; exact hmd)))
    | (rename_i x1 a1 hap x2 e he x3 md hmd x4 hm hhm
       exact (fun hb => ⟨hb.1, hb.2.1, hb.2.2.1, hb.2.2.2, rfl⟩)
         (strptime_B_d_A_bounds ds md.1 md.2 (by rw [Prod.mk.eta]; exact hmd)))

theorem monthLength_1900_le (y m : Nat) : monthLength 1900 m ≤ monthLength y m := by
  have h19 : isLeap 1900 = false := by decide
  rcases m with _ | _ | _ | _ | _ | _ | _ | _ | _ | _ | _ | _ | _ | m
  all_goals simp [monthLength, h19]
  all_goals split <;> omega

theorem pyReplaceYear_of_valid (qy : Nat) (dt : PyDateTime) (h1 : 1 ≤ qy) (h2 : qy ≤ 9999)
    (hd : dt.day ≤ monthLength 1900 dt.month) :
    pyReplaceYear qy dt = .ok { dt with year := qy } := by
  unfold pyReplaceYear
  rw [if_pos ⟨h1, h2, le_trans hd (monthLength_1900_le qy dt.month)⟩]

theorem process_ok_times (ny : Nat) (raw : RawFieldSet) (fi : FlightInfo)
    (h : process_flight_info ny raw = .ok fi) :
    convert_to_datetime ny raw.departure_date raw.departure_time
        (extract_airport_code raw.departure_airport) = .ok fi.departure_time ∧
      convert_to_datetime ny raw.arrival_date raw.arrival_time
        (extract_airport_code raw.arrival_airport) = .ok fi.arrival_time := by
  unfold process_flight_info at h
  simp only [bind, Except.bind] at h
  repeat' split at h
  all_goals cases h
  rename_i x1 c1 h1 x2 c2 h2 x3 dep hdep x4 arr harr x5 dur hdur
  exact ⟨hdep, harr⟩

/-- C7: for every FlightInfo the pipeline produces and every query year in
`datetime`'s range, the year-correction pass succeeds and is exactly a year
overwrite: both timestamps get the query year while their month, day, hour,
minute, second, UTC offset and zone — and every other FlightInfo field —
stay unchanged. -/
theorem correct_flight_dates_spec (ny : Nat) (raw : RawFieldSet) (fi : FlightInfo) (qy : Nat)
    (hp : process_flight_info ny raw = .ok fi) (h1 : 1 ≤ qy) (h2 : qy ≤ 9999) :
    correct_flight_dates qy fi =
      .ok { fi with departure_time := { fi.departure_time with year := qy },
                    arrival_time := { fi.arrival_time with year := qy } } := by
  obtain ⟨hdep, harr⟩ := process_ok_times ny raw fi hp
  have hb1 := convert_ok_bounds _ _ _ _ _ hdep
  have hb2 := convert_ok_bounds _ _ _ _ _ harr
  simp only [correct_flight_dates, bind, Except.bind,
    pyReplaceYear_of_valid qy fi.departure_time h1 h2 hb1.2.2.2.1,
    pyReplaceYear_of_valid qy fi.arrival_time h1 h2 hb2.2.2.2.1]

/-- Witness for `correct_flight_dates_spec` on the spec's fixture with query
year 2031. -/
theorem correct_flight_dates_spec_witness :
    correct_flight_dates 2031 exampleFlightInfo =
      .ok { exampleFlightInfo with
            departure_time := { exampleFlightInfo.departure_time with year := 2031 },
            arrival_time := { exampleFlightInfo.arrival_time with year := 2031 } } :=
  correct_flight_dates_spec 2025 exampleRaw exampleFlightInfo 2031
    (by decide) (by decide) (by decide)

/-! ## C2 (amended): order of the corrected timestamps -/

theorem monthLength_le_31 (y m : Nat) : monthLength y m ≤ 31 := by
  rcases m with _ | _ | _ | _ | _ | _ | _ | _ | _ | _ | _ | _ | _ | m
  all_goals simp only [monthLength]
  all_goals first
    | omega
    | (split <;> omega)

theorem dbm_add_ml_le (y a b : Nat) (ha : 1 ≤ a) (hab : a < b) (hb : b ≤ 12) :
    daysBeforeMonth y a + monthLength y a ≤ daysBeforeMonth y b := by
  have ha2 : a ≤ 11 := by omega
  cases hL : isLeap y
  all_goals interval_cases a <;> interval_cases b <;>
    simp [daysBeforeMonth, daysBeforeMonthBase, monthLength, hL]

/-- C2 (amended): once both timestamps carry the same (query) year, arrival
is at or after departure provided the arrival's month/day/time does not
lexicographically precede the departure's (with seconds breaking ties) and
the arrival's UTC offset is not larger — i.e. whenever the source dates do
not straddle the calendar-year boundary.  When they do straddle it the
invariant genuinely fails (see the counterexample), and the calendar client
compensates with the duration fallback. -/
theorem corrected_order_spec (dep arr : PyDateTime)
    (hy : dep.year = arr.year)
    (hm1 : 1 ≤ dep.month) (hm2 : dep.month ≤ 12)
    (ha1 : 1 ≤ arr.month) (ha2 : arr.month ≤ 12)
    (hd1 : 1 ≤ dep.day) (hd2 : dep.day ≤ monthLength dep.year dep.month)
    (he1 : 1 ≤ arr.day) (he2 : arr.day ≤ monthLength arr.year arr.month)
    (hh1 : dep.hour ≤ 23) (hh2 : arr.hour ≤ 23)
    (hmi1 : dep.minute ≤ 59) (hmi2 : arr.minute ≤ 59)
    (hs1 : dep.second ≤ 59) (hs2 : arr.second ≤ 59)
    (hkey : mdhmKey dep.month dep.day dep.hour dep.minute ≤
      mdhmKey arr.month arr.day arr.hour arr.minute)
    (hsec : mdhmKey dep.month dep.day dep.hour dep.minute =
        mdhmKey arr.month arr.day arr.hour arr.minute → dep.second ≤ arr.second)
    (hoff : arr.offset ≤ dep.offset) :
    toUTCSeconds dep ≤ toUTCSeconds arr := by
  have hml31d := monthLength_le_31 dep.year dep.month
  have hml31a := monthLength_le_31 arr.year arr.month
  simp only [mdhmKey] at hkey hsec
  rw [hy] at hd2
  simp only [toUTCSeconds, naiveSeconds, toDays, hy]
  by_cases hm : dep.month < arr.month
  · have hstep := dbm_add_ml_le arr.year dep.month arr.month hm1 hm ha2
    push_cast
    omega
  · have hme : dep.month = arr.month := by omega
    have hdbm : daysBeforeMonth arr.year dep.month = daysBeforeMonth arr.year arr.month := by
      rw [hme]
    push_cast
    omega

/-- Witness for `corrected_order_spec` at the fixture's Jul 19 timestamps. -/
theorem corrected_order_spec_witness :
    toUTCSeconds exampleFlightInfo.departure_time ≤
      toUTCSeconds exampleFlightInfo.arrival_time :=
  corrected_order_spec exampleFlightInfo.departure_time exampleFlightInfo.arrival_time
    (by decide) (by decide) (by decide) (by decide) (by decide) (by decide) (by decide)
    (by decide) (by decide) (by decide) (by decide) (by decide) (by decide) (by decide)
    (by decide) (by decide) (by decide) (by decide)

/-! ## C3 (amended): wall-clock dependence is confined to the offsets -/

theorem run_pipeline_inv (y q : Nat) (raw : RawFieldSet) (fi : FlightInfo)
    (h : run_pipeline y q raw = .ok fi) :
    ∃ fa, process_flight_info y raw = .ok fa ∧ correct_flight_dates q fa = .ok fi := by
  unfold run_pipeline at h
  simp only [bind, Except.bind] at h
  split at h
  · cases h
  · rename_i fa hfa
    exact ⟨fa, hfa, h⟩

theorem pyReplaceYear_ok_inv (qy : Nat) (dt dt' : PyDateTime)
    (h : pyReplaceYear qy dt = .ok dt') : dt' = { dt with year := qy } := by
  unfold pyReplaceYear at h
  split_ifs at h
  cases h
  rfl

theorem correct_ok_inv (q : Nat) (fa fi : FlightInfo)
    (h : correct_flight_dates q fa = .ok fi) :
    fi = { fa with departure_time := { fa.departure_time with year := q },
                   arrival_time := { fa.arrival_time with year := q } } := by
  unfold correct_flight_dates at h
  simp only [bind, Except.bind] at h
  repeat' split at h
  all_goals cases h
  rename_i x1 dep hdep x2 arr harr
  rw [pyReplaceYear_ok_inv q fa.departure_time dep hdep,
    pyReplaceYear_ok_inv q fa.arrival_time arr harr]

theorem process_ok_fields (ny : Nat) (raw : RawFieldSet) (fi : FlightInfo)
    (h : process_flight_info ny raw = .ok fi) :
    fi.flight_number = raw.flight_number ∧ fi.airline = raw.airline ∧
      fi.departure_airport = extract_airport_code raw.departure_airport ∧
      fi.arrival_airport = extract_airport_code raw.arrival_airport ∧
      fi.departure_country = extract_country raw.departure_country ∧
      fi.arrival_country = extract_country raw.arrival_country ∧
      extract_city_from_airport (extract_airport_code raw.departure_airport) =
        .ok fi.departure_city ∧
      extract_city_from_airport (extract_airport_code raw.arrival_airport) =
        .ok fi.arrival_city ∧
      fi.departure_terminal = raw.departure_terminal ∧
      fi.arrival_terminal = raw.arrival_terminal ∧
      parse_duration raw.duration = .ok fi.duration ∧
      fi.aircraft = raw.aircraft := by
  unfold process_flight_info at h
  simp only [bind, Except.bind] at h
  repeat' split at h
  all_goals cases h
  rename_i x1 c1 h1 x2 c2 h2 x3 dep hdep x4 arr harr x5 dur hdur
  exact ⟨rfl, rfl, rfl, rfl, rfl, rfl, h1, h2, rfl, rfl, hdur, rfl⟩

theorem convert_ok_compare (y1 y2 : Nat) (ds ts ap : List Char) (dt1 dt2 : PyDateTime)
    (h1 : convert_to_datetime y1 ds ts ap = .ok dt1)
    (h2 : convert_to_datetime y2 ds ts ap = .ok dt2) :
    dt1.month = dt2.month ∧ dt1.day = dt2.day ∧ dt1.hour = dt2.hour ∧
      dt1.minute = dt2.minute ∧ dt1.second = dt2.second ∧ dt1.tz = dt2.tz ∧
      dt1.year = y1 ∧ dt2.year = y2 := by
  unfold convert_to_datetime at h1 h2
  simp only [bind, Except.bind] at h1 h2
  repeat' split at h1
  all_goals cases h1
  all_goals repeat' split at h2
  all_goals cases h2
  all_goals simp_all

/-- C3 (amended): the normalizer (`process_flight_info` plus year
correction) is a pure function of the raw field set, the query year and the
wall-clock year; its only dependence on the wall clock is the UTC offset
baked in at localization time.  Two runs at different wall-clock years that
bake in the same offsets (in particular any two runs in the same calendar
year) produce bit-identical FlightInfo values; when the offsets differ the
outputs differ (see the counterexample). -/
theorem pipeline_wallclock_frame (raw : RawFieldSet) (q y1 y2 : Nat) (fi1 fi2 : FlightInfo)
    (h1 : run_pipeline y1 q raw = .ok fi1) (h2 : run_pipeline y2 q raw = .ok fi2)
    (ho1 : fi1.departure_time.offset = fi2.departure_time.offset)
    (ho2 : fi1.arrival_time.offset = fi2.arrival_time.offset) :
    fi1 = fi2 := by
  obtain ⟨fa1, hp1, hc1⟩ := run_pipeline_inv y1 q raw fi1 h1
  obtain ⟨fa2, hp2, hc2⟩ := run_pipeline_inv y2 q raw fi2 h2
  have hf1 := process_ok_fields y1 raw fa1 hp1
  have hf2 := process_ok_fields y2 raw fa2 hp2
  obtain ⟨ht1d, ht1a⟩ := process_ok_times y1 raw fa1 hp1
  obtain ⟨ht2d, ht2a⟩ := process_ok_times y2 raw fa2 hp2
  have hcd := convert_ok_compare y1 y2 _ _ _ _ _ ht1d ht2d
  have hca := convert_ok_compare y1 y2 _ _ _ _ _ ht1a ht2a
  have e1 := correct_ok_inv q fa1 fi1 hc1
  have e2 := correct_ok_inv q fa2 fi2 hc2
  subst e1
  subst e2
  simp only at ho1 ho2
  apply FlightInfo.ext
  · exact hf1.1.trans hf2.1.symm
  · exact hf1.2.1.trans hf2.2.1.symm
  · exact hf1.2.2.1.trans hf2.2.2.1.symm
  · exact hf1.2.2.2.1.trans hf2.2.2.2.1.symm
  · exact hf1.2.2.2.2.1.trans hf2.2.2.2.2.1.symm
  · exact hf1.2.2.2.2.2.1.trans hf2.2.2.2.2.2.1.symm
  · exact Except.ok.inj (hf1.2.2.2.2.2.2.1.symm.trans hf2.2.2.2.2.2.2.1)
  · exact Except.ok.inj (hf1.2.2.2.2.2.2.2.1.symm.trans hf2.2.2.2.2.2.2.2.1)
  · exact hf1.2.2.2.2.2.2.2.2.1.trans hf2.2.2.2.2.2.2.2.2.1.symm
  · exact hf1.2.2.2.2.2.2.2.2.2.1.trans hf2.2.2.2.2.2.2.2.2.2.1.symm
  · apply PyDateTime.ext <;> simp only
    · exact hcd.1
    · exact hcd.2.1
    · exact hcd.2.2.1
    · exact hcd.2.2.2.1
    · exact hcd.2.2.2.2.1
    · exact ho1
    · exact hcd.2.2.2.2.2.1
  · apply PyDateTime.ext <;> simp only
    · exact hca.1
    · exact hca.2.1
    · exact hca.2.2.1
    · exact hca.2.2.2.1
    · exact hca.2.2.2.2.1
    · exact ho2
    · exact hca.2.2.2.2.2.1
  · exact Except.ok.inj (hf1.2.2.2.2.2.2.2.2.2.2.1.symm.trans hf2.2.2.2.2.2.2.2.2.2.2.1)
  · exact hf1.2.2.2.2.2.2.2.2.2.2.2.trans hf2.2.2.2.2.2.2.2.2.2.2.2.symm

/-- The fixture's pipeline output with query year 2030 (Jul 19 bakes in the
same CEST offset in every year involved). -/
def exampleCorrected2030 : FlightInfo :=
  { exampleFlightInfo with
    departure_time := { exampleFlightInfo.departure_time with year := 2030 },
    arrival_time := { exampleFlightInfo.arrival_time with year := 2030 } }

/-- Witness for `pipeline_wallclock_frame`: runs at wall-clock years 2025
and 2026 with query year 2030 agree on the fixture. -/
theorem pipeline_wallclock_frame_witness : exampleCorrected2030 = exampleCorrected2030 :=
  pipeline_wallclock_frame exampleRaw 2030 2025 2026 exampleCorrected2030 exampleCorrected2030
    (by decide) (by decide) (by decide) (by decide)
